import Mathlib

/-!
Verification of the account ledger state machine of the payments engine.

The monetary type of the source, `rust_decimal::Decimal`, is embedded as an
exact rational number together with the representable magnitude bound
`Decimal.MAX = 2^96 - 1` (the mantissa bound of the 96-bit decimal);
`checked_add` returns `none` exactly when the exact sum leaves the
representable range `[-MAX, MAX]`.  The per-client hash maps
(`applied_deposits`, `disputed_deposits`, `chargedback_deposits`) are embedded
extensionally as functions `Nat → Option Deposit`, matching the key-value
semantics of the source maps.  Each mutating method of `ClientAccount` is
embedded as a function returning the `Result` together with the state of the
receiver when the method returns, mirroring the `&mut self` signature of
`apply_transaction`: every early `return` of the source corresponds to a
branch returning the state reached at that point.
-/

abbrev Decimal : Type := ℚ

def Decimal.MAX : Decimal := 79228162514264337593543950335

/-- `Decimal::checked_add`: `none` when the exact sum is outside the
representable range. -/
def Decimal.checked_add (a b : Decimal) : Option Decimal :=
  if -Decimal.MAX ≤ a + b ∧ a + b ≤ Decimal.MAX then some (a + b) else none

abbrev TransactionId : Type := Nat

abbrev ClientId : Type := Nat

structure Deposit where
  amount : Decimal
deriving DecidableEq

structure Withdrawal where
  amount : Decimal
deriving DecidableEq

inductive TransactionAction where
  | Deposit (deposit : Deposit)
  | Withdrawal (withdrawal : Withdrawal)
  | Dispute
  | Resolve
  | Chargeback
deriving DecidableEq

structure Transaction where
  client_id : ClientId
  transaction_id : TransactionId
  action : TransactionAction
deriving DecidableEq

/-- `Transaction::to_string`. -/
def Transaction.to_string (t : Transaction) : String :=
  match t.action with
  | TransactionAction.Deposit _ =>
      "deposit with transaction ID " ++ toString t.transaction_id
  | TransactionAction.Withdrawal _ =>
      "withdrawal with transaction ID " ++ toString t.transaction_id
  | TransactionAction.Dispute =>
      "dispute for transaction ID " ++ toString t.transaction_id
  | TransactionAction.Resolve =>
      "resolve for transaction ID " ++ toString t.transaction_id
  | TransactionAction.Chargeback =>
      "chargeback for transaction ID " ++ toString t.transaction_id

/-- Extensional embedding of `HashMap<u32, Deposit>`. -/
abbrev DepositMap : Type := Nat → Option Deposit

def mapInsert (m : DepositMap) (k : Nat) (v : Deposit) : DepositMap :=
  fun q => if q = k then some v else m q

def mapRemove (m : DepositMap) (k : Nat) : DepositMap :=
  fun q => if q = k then none else m q

def emptyMap : DepositMap := fun _ => none

@[ext]
structure ClientAccount where
  client_id : ClientId
  available_balance : Decimal
  held_balance : Decimal
  total_balance : Decimal
  locked : Bool
  last_transaction_id : Option TransactionId
  applied_deposits : DepositMap
  disputed_deposits : DepositMap
  chargedback_deposits : DepositMap

/-- `ClientAccount::new`. -/
def ClientAccount.new (client_id : ClientId) : ClientAccount where
  client_id := client_id
  available_balance := 0
  held_balance := 0
  total_balance := 0
  locked := false
  last_transaction_id := none
  applied_deposits := emptyMap
  disputed_deposits := emptyMap
  chargedback_deposits := emptyMap

/-- `ClientAccount::is_transaction_in_order`. -/
def ClientAccount.is_transaction_in_order
    (s : ClientAccount) (transaction_id : TransactionId) : Bool :=
  match s.last_transaction_id with
  | some last_transaction_id => if last_transaction_id ≥ transaction_id then false else true
  | none => true

/-- A method result: the `Result<(), Error>` of the source paired with the
state of the receiver when the method returns. -/
abbrev ApplyResult : Type := Except String Unit × ClientAccount

/-- `ClientAccount::apply_deposit`. -/
def ClientAccount.apply_deposit
    (s : ClientAccount) (transaction_id : TransactionId) (deposit : Deposit) : ApplyResult :=
  if ¬ s.is_transaction_in_order transaction_id then (Except.ok (), s)
  else
    match Decimal.checked_add s.total_balance deposit.amount with
    | none => (Except.error "Deposit would cause balance overflow", s)
    | some total_balance =>
        (Except.ok (),
          { s with
            total_balance := total_balance
            available_balance := s.available_balance + deposit.amount
            applied_deposits := mapInsert s.applied_deposits transaction_id deposit
            last_transaction_id := some transaction_id })

/-- `ClientAccount::apply_withdrawal`. -/
def ClientAccount.apply_withdrawal
    (s : ClientAccount) (transaction_id : TransactionId) (withdrawal : Withdrawal) : ApplyResult :=
  if ¬ s.is_transaction_in_order transaction_id then (Except.ok (), s)
  else if withdrawal.amount > s.available_balance then
    (Except.error "Insufficient available balance for withdrawal", s)
  else
    (Except.ok (),
      { s with
        available_balance := s.available_balance - withdrawal.amount
        total_balance := s.total_balance - withdrawal.amount
        last_transaction_id := some transaction_id })

/-- `ClientAccount::apply_dispute`. -/
def ClientAccount.apply_dispute
    (s : ClientAccount) (transaction_id : TransactionId) : ApplyResult :=
  match s.applied_deposits transaction_id with
  | some deposit =>
      match Decimal.checked_add s.held_balance deposit.amount with
      | none => (Except.error "Dispute would cause held balance overflow", s)
      | some held_balance =>
          (Except.ok (),
            { s with
              available_balance := s.available_balance - deposit.amount
              held_balance := held_balance
              applied_deposits := mapRemove s.applied_deposits transaction_id
              disputed_deposits := mapInsert s.disputed_deposits transaction_id deposit })
  | none => (Except.ok (), s)

/-- `ClientAccount::apply_resolve`. -/
def ClientAccount.apply_resolve
    (s : ClientAccount) (transaction_id : TransactionId) : ApplyResult :=
  match s.disputed_deposits transaction_id with
  | some deposit =>
      (Except.ok (),
        { s with
          available_balance := s.available_balance + deposit.amount
          held_balance := s.held_balance - deposit.amount
          disputed_deposits := mapRemove s.disputed_deposits transaction_id
          applied_deposits := mapInsert s.applied_deposits transaction_id deposit })
  | none => (Except.ok (), s)

/-- `ClientAccount::apply_chargeback`. -/
def ClientAccount.apply_chargeback
    (s : ClientAccount) (transaction_id : TransactionId) : ApplyResult :=
  match s.disputed_deposits transaction_id with
  | some deposit =>
      (Except.ok (),
        { s with
          held_balance := s.held_balance - deposit.amount
          total_balance := s.total_balance - deposit.amount
          chargedback_deposits := mapInsert s.chargedback_deposits transaction_id deposit
          disputed_deposits := mapRemove s.disputed_deposits transaction_id
          locked := true })
  | none => (Except.ok (), s)

/-- The action dispatch of `apply_transaction`: the `match transaction.action`
expression of the source. -/
def ClientAccount.apply_action (s : ClientAccount) (t : Transaction) : ApplyResult :=
  match t.action with
  | TransactionAction.Deposit deposit => s.apply_deposit t.transaction_id deposit
  | TransactionAction.Withdrawal withdrawal => s.apply_withdrawal t.transaction_id withdrawal
  | TransactionAction.Dispute => s.apply_dispute t.transaction_id
  | TransactionAction.Resolve => s.apply_resolve t.transaction_id
  | TransactionAction.Chargeback => s.apply_chargeback t.transaction_id

/-- `ClientAccount::apply_transaction`. -/
def ClientAccount.apply_transaction (s : ClientAccount) (t : Transaction) : ApplyResult :=
  let transaction_description := t.to_string
  if s.locked then
    (Except.error ("Failed to apply " ++ transaction_description ++ ": Account is locked"), s)
  else
    let r := s.apply_action t
    match r.1 with
    | Except.error e =>
        (Except.error ("Failed to apply " ++ transaction_description ++ ": " ++ e), r.2)
    | Except.ok _ => r

/-- The upstream contract on transactions reaching the ledger: deposit and
withdrawal amounts are strictly positive. -/
def Transaction.PositiveAmounts (t : Transaction) : Prop :=
  match t.action with
  | TransactionAction.Deposit deposit => 0 < deposit.amount
  | TransactionAction.Withdrawal withdrawal => 0 < withdrawal.amount
  | _ => True

/-- Ledger states reachable from a new account by `apply_transaction` calls
with strictly positive deposit and withdrawal amounts, whether each call
succeeded or failed. -/
inductive Reachable : ClientAccount → Prop where
  | base (client_id : ClientId) : Reachable (ClientAccount.new client_id)
  | step (s : ClientAccount) (t : Transaction) :
      Reachable s → t.PositiveAmounts → Reachable (s.apply_transaction t).2

/-- A value within the representable range of the decimal type. -/
def Decimal.InRange (x : Decimal) : Prop :=
  -Decimal.MAX ≤ x ∧ x ≤ Decimal.MAX

/-- The amount stored in an optional map entry, zero when absent. -/
def entryAmount (o : Option Deposit) : Decimal :=
  match o with
  | some deposit => deposit.amount
  | none => 0

/-- `fs` is the (finite) set of keys of map `m`. -/
def IsSupport (fs : Finset Nat) (m : DepositMap) : Prop :=
  ∀ k, k ∈ fs ↔ (m k).isSome

/-- `t.action` is a deposit or a withdrawal. -/
def Transaction.IsDepositOrWithdrawal (t : Transaction) : Prop :=
  match t.action with
  | TransactionAction.Deposit _ => True
  | TransactionAction.Withdrawal _ => True
  | _ => False

/-- The inductive invariant of reachable ledger states. -/
structure LedgerInv (s : ClientAccount) : Prop where
  bal : s.total_balance = s.available_balance + s.held_balance
  held_sum : ∃ fs : Finset Nat, IsSupport fs s.disputed_deposits ∧
    s.held_balance = Finset.sum fs (fun k => entryAmount (s.disputed_deposits k))
  applied_ok : ∀ k d, s.applied_deposits k = some d →
    0 < d.amount ∧ d.amount ≤ Decimal.MAX
  disputed_ok : ∀ k d, s.disputed_deposits k = some d →
    0 < d.amount ∧ d.amount ≤ Decimal.MAX
  disj_ad : ∀ k, s.applied_deposits k = none ∨ s.disputed_deposits k = none
  keys_le : ∀ k, ((s.applied_deposits k).isSome ∨ (s.disputed_deposits k).isSome) →
    ∃ l, s.last_transaction_id = some l ∧ k ≤ l
  held_ub : s.held_balance ≤ Decimal.MAX
  total_ub : s.total_balance ≤ Decimal.MAX
  total_nonneg : s.locked = false → 0 ≤ s.total_balance

/-- Concrete deposit transaction, used by witnesses. -/
def mkDeposit (transaction_id : TransactionId) (a : Decimal) : Transaction :=
  ⟨1, transaction_id, TransactionAction.Deposit ⟨a⟩⟩

/-- Concrete withdrawal transaction, used by witnesses. -/
def mkWithdrawal (transaction_id : TransactionId) (a : Decimal) : Transaction :=
  ⟨1, transaction_id, TransactionAction.Withdrawal ⟨a⟩⟩

/-- Concrete dispute transaction, used by witnesses. -/
def mkDispute (transaction_id : TransactionId) : Transaction :=
  ⟨1, transaction_id, TransactionAction.Dispute⟩

/-- Concrete resolve transaction, used by witnesses. -/
def mkResolve (transaction_id : TransactionId) : Transaction :=
  ⟨1, transaction_id, TransactionAction.Resolve⟩

/-- Concrete chargeback transaction, used by witnesses. -/
def mkChargeback (transaction_id : TransactionId) : Transaction :=
  ⟨1, transaction_id, TransactionAction.Chargeback⟩

/-- Fold a list of transactions over `apply_transaction`, keeping the final
state; used to state concrete scenarios. -/
def applyAll (s : ClientAccount) (ts : List Transaction) : ClientAccount :=
  ts.foldl (fun s t => (s.apply_transaction t).2) s

/- ## Basic lemmas -/

theorem Decimal.MAX_pos : 0 < Decimal.MAX := by norm_num [Decimal.MAX]

theorem Decimal.checked_add_some {a b c : Decimal}
    (h : Decimal.checked_add a b = some c) :
    c = a + b ∧ -Decimal.MAX ≤ a + b ∧ a + b ≤ Decimal.MAX := by
  unfold Decimal.checked_add at h
  split at h
  · rename_i hr
    exact ⟨((Option.some.injEq _ _).mp h).symm, hr⟩
  · exact absurd h (by simp)

theorem Decimal.checked_add_eq_some {a b : Decimal}
    (h1 : -Decimal.MAX ≤ a + b) (h2 : a + b ≤ Decimal.MAX) :
    Decimal.checked_add a b = some (a + b) := by
  unfold Decimal.checked_add
  exact if_pos ⟨h1, h2⟩

theorem Decimal.checked_add_eq_none {a b : Decimal}
    (h : a + b > Decimal.MAX ∨ a + b < -Decimal.MAX) :
    Decimal.checked_add a b = none := by
  unfold Decimal.checked_add
  apply if_neg
  rcases h with h | h
  · exact fun hc => absurd hc.2 (not_le.mpr h)
  · exact fun hc => absurd hc.1 (not_le.mpr h)

@[simp]
theorem mapInsert_self (m : DepositMap) (k : Nat) (v : Deposit) :
    mapInsert m k v k = some v := by simp [mapInsert]

theorem mapInsert_ne (m : DepositMap) {q k : Nat} (v : Deposit) (h : q ≠ k) :
    mapInsert m k v q = m q := by simp [mapInsert, h]

@[simp]
theorem mapRemove_self (m : DepositMap) (k : Nat) :
    mapRemove m k k = none := by simp [mapRemove]

theorem mapRemove_ne (m : DepositMap) {q k : Nat} (h : q ≠ k) :
    mapRemove m k q = m q := by simp [mapRemove, h]

theorem is_in_order_none {s : ClientAccount} (h : s.last_transaction_id = none)
    (transaction_id : TransactionId) :
    s.is_transaction_in_order transaction_id = true := by
  simp [ClientAccount.is_transaction_in_order, h]

theorem is_in_order_some {s : ClientAccount} {l : TransactionId}
    (h : s.last_transaction_id = some l) (transaction_id : TransactionId) :
    s.is_transaction_in_order transaction_id = true ↔ l < transaction_id := by
  simp only [ClientAccount.is_transaction_in_order, h]
  split
  · rename_i hge
    simp only [Bool.false_eq_true, false_iff, not_lt]
    exact hge
  · rename_i hlt
    simp only [true_iff]
    exact lt_of_not_ge hlt

theorem lt_of_in_order {s : ClientAccount} {l transaction_id : TransactionId}
    (h : s.last_transaction_id = some l)
    (ho : s.is_transaction_in_order transaction_id = true) : l < transaction_id :=
  (is_in_order_some h transaction_id).mp ho

theorem apply_transaction_locked {s : ClientAccount} (t : Transaction)
    (h : s.locked = true) :
    s.apply_transaction t =
      (Except.error ("Failed to apply " ++ t.to_string ++ ": Account is locked"), s) := by
  simp [ClientAccount.apply_transaction, h]

theorem apply_transaction_of_ok {s : ClientAccount} {t : Transaction}
    (h : s.locked = false) (hok : (s.apply_action t).1 = Except.ok ()) :
    s.apply_transaction t = s.apply_action t := by
  simp only [ClientAccount.apply_transaction, h, Bool.false_eq_true, if_false]
  rw [hok]

theorem apply_transaction_of_error {s : ClientAccount} {t : Transaction} {e : String}
    (h : s.locked = false) (herr : (s.apply_action t).1 = Except.error e) :
    s.apply_transaction t =
      (Except.error ("Failed to apply " ++ t.to_string ++ ": " ++ e),
        (s.apply_action t).2) := by
  simp only [ClientAccount.apply_transaction, h, Bool.false_eq_true, if_false]
  rw [herr]

theorem apply_transaction_snd {s : ClientAccount} (t : Transaction)
    (h : s.locked = false) :
    (s.apply_transaction t).2 = (s.apply_action t).2 := by
  rcases hr : (s.apply_action t).1 with e | u
  · rw [apply_transaction_of_error h hr]
  · rw [apply_transaction_of_ok h hr]

/- ## Finite-support lemmas for the held-balance sum -/

theorem support_mem_of_some {fs : Finset Nat} {m : DepositMap} {k : Nat} {d : Deposit}
    (hfs : IsSupport fs m) (h : m k = some d) : k ∈ fs :=
  (hfs k).mpr (by simp [h])

theorem support_not_mem_of_none {fs : Finset Nat} {m : DepositMap} {k : Nat}
    (hfs : IsSupport fs m) (h : m k = none) : k ∉ fs := by
  intro hk
  have := (hfs k).mp hk
  rw [h] at this
  exact absurd this (by simp)

theorem support_insert {fs : Finset Nat} {m : DepositMap} (hfs : IsSupport fs m)
    (k : Nat) (v : Deposit) : IsSupport (insert k fs) (mapInsert m k v) := by
  intro q
  by_cases hq : q = k
  · subst hq
    simp [mapInsert]
  · simp only [Finset.mem_insert, hq, false_or, mapInsert_ne m v hq]
    exact hfs q

theorem support_erase {fs : Finset Nat} {m : DepositMap} (hfs : IsSupport fs m)
    (k : Nat) : IsSupport (fs.erase k) (mapRemove m k) := by
  intro q
  by_cases hq : q = k
  · subst hq
    simp [mapRemove]
  · simp only [Finset.mem_erase, hq, ne_eq, not_false_eq_true, true_and,
      mapRemove_ne m hq]
    exact hfs q

theorem sum_mapInsert {fs : Finset Nat} {m : DepositMap} {k : Nat}
    (hfs : IsSupport fs m) (hk : m k = none) (v : Deposit) :
    Finset.sum (insert k fs) (fun q => entryAmount (mapInsert m k v q)) =
      v.amount + Finset.sum fs (fun q => entryAmount (m q)) := by
  have hnot : k ∉ fs := support_not_mem_of_none hfs hk
  rw [Finset.sum_insert hnot]
  congr 1
  · simp [entryAmount]
  · apply Finset.sum_congr rfl
    intro q hq
    have hq' : q ≠ k := fun hqk => hnot (hqk ▸ hq)
    rw [mapInsert_ne m v hq']

theorem sum_mapRemove {fs : Finset Nat} {m : DepositMap} {k : Nat} {d : Deposit}
    (hfs : IsSupport fs m) (hk : m k = some d) :
    Finset.sum fs (fun q => entryAmount (m q)) =
      d.amount + Finset.sum (fs.erase k) (fun q => entryAmount (mapRemove m k q)) := by
  have hmem : k ∈ fs := support_mem_of_some hfs hk
  have hsum : Finset.sum (fs.erase k) (fun q => entryAmount (mapRemove m k q)) =
      Finset.sum (fs.erase k) (fun q => entryAmount (m q)) := by
    apply Finset.sum_congr rfl
    intro q hq
    rw [mapRemove_ne m (Finset.mem_erase.mp hq).1]
  rw [hsum]
  rw [← Finset.add_sum_erase fs _ hmem]
  congr 1
  simp [entryAmount, hk]

theorem entryAmount_nonneg {m : DepositMap}
    (hok : ∀ k d, m k = some d → 0 < d.amount ∧ d.amount ≤ Decimal.MAX) (q : Nat) :
    0 ≤ entryAmount (m q) := by
  rcases hm : m q with _ | d
  · simp [entryAmount]
  · exact le_of_lt (hok q d hm).1

theorem sum_entry_nonneg {fs : Finset Nat} {m : DepositMap}
    (hok : ∀ k d, m k = some d → 0 < d.amount ∧ d.amount ≤ Decimal.MAX) :
    0 ≤ Finset.sum fs (fun q => entryAmount (m q)) :=
  Finset.sum_nonneg (fun q _ => entryAmount_nonneg hok q)

theorem entry_le_sum {fs : Finset Nat} {m : DepositMap} {k : Nat} {d : Deposit}
    (hfs : IsSupport fs m)
    (hok : ∀ k d, m k = some d → 0 < d.amount ∧ d.amount ≤ Decimal.MAX)
    (hk : m k = some d) :
    d.amount ≤ Finset.sum fs (fun q => entryAmount (m q)) := by
  have hmem : k ∈ fs := support_mem_of_some hfs hk
  have := Finset.single_le_sum (f := fun q => entryAmount (m q))
    (fun q _ => entryAmount_nonneg hok q) hmem
  simpa [entryAmount, hk] using this

/- ## Derived facts from the invariant -/

theorem LedgerInv.held_nonneg {s : ClientAccount} (hInv : LedgerInv s) :
    0 ≤ s.held_balance := by
  obtain ⟨fs, hfs, hsum⟩ := hInv.held_sum
  rw [hsum]
  exact sum_entry_nonneg hInv.disputed_ok

theorem LedgerInv.disputed_le_held {s : ClientAccount} {k : Nat} {d : Deposit}
    (hInv : LedgerInv s) (h : s.disputed_deposits k = some d) :
    d.amount ≤ s.held_balance := by
  obtain ⟨fs, hfs, hsum⟩ := hInv.held_sum
  rw [hsum]
  exact entry_le_sum hfs hInv.disputed_ok h

theorem LedgerInv.avail_le_total {s : ClientAccount} (hInv : LedgerInv s) :
    s.available_balance ≤ s.total_balance := by
  have := hInv.held_nonneg
  have hb := hInv.bal
  linarith

theorem LedgerInv.new (client_id : ClientId) : LedgerInv (ClientAccount.new client_id) := by
  refine ⟨?_, ⟨∅, ?_, ?_⟩, ?_, ?_, ?_, ?_, ?_, ?_, ?_⟩
  · simp [ClientAccount.new]
  · intro k
    simp [ClientAccount.new, emptyMap]
  · simp [ClientAccount.new]
  · intro k d h
    simp [ClientAccount.new, emptyMap] at h
  · intro k d h
    simp [ClientAccount.new, emptyMap] at h
  · intro k
    left
    simp [ClientAccount.new, emptyMap]
  · intro k hk
    simp [ClientAccount.new, emptyMap] at hk
  · simp [ClientAccount.new]
    exact le_of_lt Decimal.MAX_pos
  · simp [ClientAccount.new]
    exact le_of_lt Decimal.MAX_pos
  · intro _
    simp [ClientAccount.new]

/- ## Branch equations for the five mutators -/

theorem apply_deposit_skip {s : ClientAccount} {transaction_id : TransactionId}
    (h : s.is_transaction_in_order transaction_id = false) (d : Deposit) :
    s.apply_deposit transaction_id d = (Except.ok (), s) := by
  simp [ClientAccount.apply_deposit, h]

theorem apply_deposit_overflow {s : ClientAccount} {transaction_id : TransactionId}
    {d : Deposit} (h : s.is_transaction_in_order transaction_id = true)
    (hca : Decimal.checked_add s.total_balance d.amount = none) :
    s.apply_deposit transaction_id d =
      (Except.error "Deposit would cause balance overflow", s) := by
  simp [ClientAccount.apply_deposit, h, hca]

theorem apply_deposit_applies {s : ClientAccount} {transaction_id : TransactionId}
    {d : Deposit} {tb : Decimal} (h : s.is_transaction_in_order transaction_id = true)
    (hca : Decimal.checked_add s.total_balance d.amount = some tb) :
    s.apply_deposit transaction_id d =
      (Except.ok (),
        { s with
          total_balance := tb
          available_balance := s.available_balance + d.amount
          applied_deposits := mapInsert s.applied_deposits transaction_id d
          last_transaction_id := some transaction_id }) := by
  simp [ClientAccount.apply_deposit, h, hca]

theorem apply_withdrawal_skip {s : ClientAccount} {transaction_id : TransactionId}
    (h : s.is_transaction_in_order transaction_id = false) (w : Withdrawal) :
    s.apply_withdrawal transaction_id w = (Except.ok (), s) := by
  simp [ClientAccount.apply_withdrawal, h]

theorem apply_withdrawal_insufficient {s : ClientAccount} {transaction_id : TransactionId}
    {w : Withdrawal} (h : s.is_transaction_in_order transaction_id = true)
    (hgt : w.amount > s.available_balance) :
    s.apply_withdrawal transaction_id w =
      (Except.error "Insufficient available balance for withdrawal", s) := by
  simp [ClientAccount.apply_withdrawal, h, hgt]

theorem apply_withdrawal_applies {s : ClientAccount} {transaction_id : TransactionId}
    {w : Withdrawal} (h : s.is_transaction_in_order transaction_id = true)
    (hle : ¬ w.amount > s.available_balance) :
    s.apply_withdrawal transaction_id w =
      (Except.ok (),
        { s with
          available_balance := s.available_balance - w.amount
          total_balance := s.total_balance - w.amount
          last_transaction_id := some transaction_id }) := by
  simp [ClientAccount.apply_withdrawal, h, hle]

theorem apply_dispute_skip {s : ClientAccount} {transaction_id : TransactionId}
    (h : s.applied_deposits transaction_id = none) :
    s.apply_dispute transaction_id = (Except.ok (), s) := by
  simp [ClientAccount.apply_dispute, h]

theorem apply_dispute_overflow {s : ClientAccount} {transaction_id : TransactionId}
    {d : Deposit} (h : s.applied_deposits transaction_id = some d)
    (hca : Decimal.checked_add s.held_balance d.amount = none) :
    s.apply_dispute transaction_id =
      (Except.error "Dispute would cause held balance overflow", s) := by
  simp [ClientAccount.apply_dispute, h, hca]

theorem apply_dispute_applies {s : ClientAccount} {transaction_id : TransactionId}
    {d : Deposit} {hb : Decimal} (h : s.applied_deposits transaction_id = some d)
    (hca : Decimal.checked_add s.held_balance d.amount = some hb) :
    s.apply_dispute transaction_id =
      (Except.ok (),
        { s with
          available_balance := s.available_balance - d.amount
          held_balance := hb
          applied_deposits := mapRemove s.applied_deposits transaction_id
          disputed_deposits := mapInsert s.disputed_deposits transaction_id d }) := by
  simp [ClientAccount.apply_dispute, h, hca]

theorem apply_resolve_skip {s : ClientAccount} {transaction_id : TransactionId}
    (h : s.disputed_deposits transaction_id = none) :
    s.apply_resolve transaction_id = (Except.ok (), s) := by
  simp [ClientAccount.apply_resolve, h]

theorem apply_resolve_applies {s : ClientAccount} {transaction_id : TransactionId}
    {d : Deposit} (h : s.disputed_deposits transaction_id = some d) :
    s.apply_resolve transaction_id =
      (Except.ok (),
        { s with
          available_balance := s.available_balance + d.amount
          held_balance := s.held_balance - d.amount
          disputed_deposits := mapRemove s.disputed_deposits transaction_id
          applied_deposits := mapInsert s.applied_deposits transaction_id d }) := by
  simp [ClientAccount.apply_resolve, h]

theorem apply_chargeback_skip {s : ClientAccount} {transaction_id : TransactionId}
    (h : s.disputed_deposits transaction_id = none) :
    s.apply_chargeback transaction_id = (Except.ok (), s) := by
  simp [ClientAccount.apply_chargeback, h]

theorem apply_chargeback_applies {s : ClientAccount} {transaction_id : TransactionId}
    {d : Deposit} (h : s.disputed_deposits transaction_id = some d) :
    s.apply_chargeback transaction_id =
      (Except.ok (),
        { s with
          held_balance := s.held_balance - d.amount
          total_balance := s.total_balance - d.amount
          chargedback_deposits := mapInsert s.chargedback_deposits transaction_id d
          disputed_deposits := mapRemove s.disputed_deposits transaction_id
          locked := true }) := by
  simp [ClientAccount.apply_chargeback, h]

/- ## Invariant preservation -/

theorem keys_lt_of_in_order {s : ClientAccount} {transaction_id : TransactionId}
    (hInv : LedgerInv s) (hord : s.is_transaction_in_order transaction_id = true) :
    ∀ k, ((s.applied_deposits k).isSome ∨ (s.disputed_deposits k).isSome) →
      k < transaction_id := by
  intro k hk
  obtain ⟨l, hl, hkl⟩ := hInv.keys_le k hk
  exact lt_of_le_of_lt hkl (lt_of_in_order hl hord)

theorem disputed_none_of_in_order {s : ClientAccount} {transaction_id : TransactionId}
    (hInv : LedgerInv s) (hord : s.is_transaction_in_order transaction_id = true) :
    s.disputed_deposits transaction_id = none := by
  rcases hd : s.disputed_deposits transaction_id with _ | v
  · rfl
  · exact absurd (keys_lt_of_in_order hInv hord transaction_id (Or.inr (by simp [hd])))
      (lt_irrefl _)

theorem inv_apply_deposit {s : ClientAccount} {transaction_id : TransactionId} {d : Deposit}
    (hInv : LedgerInv s) (hlock : s.locked = false) (hpos : 0 < d.amount) :
    LedgerInv (s.apply_deposit transaction_id d).2 := by
  cases hord : s.is_transaction_in_order transaction_id with
  | false =>
    rw [apply_deposit_skip hord]
    exact hInv
  | true =>
    rcases hca : Decimal.checked_add s.total_balance d.amount with _ | tb
    · rw [apply_deposit_overflow hord hca]
      exact hInv
    · rw [apply_deposit_applies hord hca]
      obtain ⟨htb, hlo, hhi⟩ := Decimal.checked_add_some hca
      have htot0 : 0 ≤ s.total_balance := hInv.total_nonneg hlock
      have hamt_le : d.amount ≤ Decimal.MAX := by linarith
      have hkeys := keys_lt_of_in_order hInv hord
      have hdisp_none := disputed_none_of_in_order hInv hord
      refine ⟨?_, ?_, ?_, ?_, ?_, ?_, ?_, ?_, ?_⟩
      · show tb = s.available_balance + d.amount + s.held_balance
        rw [htb, hInv.bal]
        ring
      · exact hInv.held_sum
      · intro k v hk
        have hk' : mapInsert s.applied_deposits transaction_id d k = some v := hk
        by_cases hqk : k = transaction_id
        · subst hqk
          rw [mapInsert_self] at hk'
          cases hk'
          exact ⟨hpos, hamt_le⟩
        · rw [mapInsert_ne _ _ hqk] at hk'
          exact hInv.applied_ok k v hk'
      · exact hInv.disputed_ok
      · intro k
        by_cases hqk : k = transaction_id
        · subst hqk
          right
          exact hdisp_none
        · show mapInsert s.applied_deposits transaction_id d k = none ∨ _
          rw [mapInsert_ne _ _ hqk]
          exact hInv.disj_ad k
      · intro k hk
        refine ⟨transaction_id, rfl, ?_⟩
        by_cases hqk : k = transaction_id
        · exact le_of_eq hqk
        · have hk' : (s.applied_deposits k).isSome ∨ (s.disputed_deposits k).isSome := by
            rcases hk with h | h
            · left
              have h' : (mapInsert s.applied_deposits transaction_id d k).isSome := h
              rw [mapInsert_ne _ _ hqk] at h'
              exact h'
            · right
              exact h
          exact le_of_lt (hkeys k hk')
      · exact hInv.held_ub
      · show tb ≤ Decimal.MAX
        rw [htb]
        exact hhi
      · intro _
        show 0 ≤ tb
        rw [htb]
        linarith

theorem inv_apply_withdrawal {s : ClientAccount} {transaction_id : TransactionId}
    {w : Withdrawal} (hInv : LedgerInv s) (hpos : 0 < w.amount) :
    LedgerInv (s.apply_withdrawal transaction_id w).2 := by
  cases hord : s.is_transaction_in_order transaction_id with
  | false =>
    rw [apply_withdrawal_skip hord]
    exact hInv
  | true =>
    by_cases hgt : w.amount > s.available_balance
    · rw [apply_withdrawal_insufficient hord hgt]
      exact hInv
    · rw [apply_withdrawal_applies hord hgt]
      have hle : w.amount ≤ s.available_balance := le_of_not_lt hgt
      have hheld0 : 0 ≤ s.held_balance := hInv.held_nonneg
      have hkeys := keys_lt_of_in_order hInv hord
      refine ⟨?_, ?_, ?_, ?_, ?_, ?_, ?_, ?_, ?_⟩
      · show s.total_balance - w.amount = s.available_balance - w.amount + s.held_balance
        rw [hInv.bal]
        ring
      · exact hInv.held_sum
      · exact hInv.applied_ok
      · exact hInv.disputed_ok
      · exact hInv.disj_ad
      · intro k hk
        exact ⟨transaction_id, rfl, le_of_lt (hkeys k hk)⟩
      · exact hInv.held_ub
      · show s.total_balance - w.amount ≤ Decimal.MAX
        have := hInv.total_ub
        linarith
      · intro _
        show 0 ≤ s.total_balance - w.amount
        have := hInv.bal
        linarith

theorem inv_apply_dispute {s : ClientAccount} {transaction_id : TransactionId}
    (hInv : LedgerInv s) : LedgerInv (s.apply_dispute transaction_id).2 := by
  rcases ha : s.applied_deposits transaction_id with _ | d
  · rw [apply_dispute_skip ha]
    exact hInv
  · rcases hca : Decimal.checked_add s.held_balance d.amount with _ | hb
    · rw [apply_dispute_overflow ha hca]
      exact hInv
    · rw [apply_dispute_applies ha hca]
      obtain ⟨hhb, hlo, hhi⟩ := Decimal.checked_add_some hca
      obtain ⟨hd_pos, hd_le⟩ := hInv.applied_ok transaction_id d ha
      have hdisp_none : s.disputed_deposits transaction_id = none := by
        rcases hInv.disj_ad transaction_id with h | h
        · rw [ha] at h
          exact absurd h (by simp)
        · exact h
      refine ⟨?_, ?_, ?_, ?_, ?_, ?_, ?_, ?_, ?_⟩
      · show s.total_balance = s.available_balance - d.amount + hb
        rw [hhb, hInv.bal]
        ring
      · obtain ⟨fs, hfs, hsum⟩ := hInv.held_sum
        refine ⟨insert transaction_id fs, support_insert hfs transaction_id d, ?_⟩
        show hb = _
        rw [sum_mapInsert hfs hdisp_none d, ← hsum, hhb]
        ring
      · intro k v hk
        have hk' : mapRemove s.applied_deposits transaction_id k = some v := hk
        by_cases hqk : k = transaction_id
        · subst hqk
          rw [mapRemove_self] at hk'
          exact absurd hk' (by simp)
        · rw [mapRemove_ne _ hqk] at hk'
          exact hInv.applied_ok k v hk'
      · intro k v hk
        have hk' : mapInsert s.disputed_deposits transaction_id d k = some v := hk
        by_cases hqk : k = transaction_id
        · subst hqk
          rw [mapInsert_self] at hk'
          cases hk'
          exact ⟨hd_pos, hd_le⟩
        · rw [mapInsert_ne _ _ hqk] at hk'
          exact hInv.disputed_ok k v hk'
      · intro k
        by_cases hqk : k = transaction_id
        · subst hqk
          left
          exact mapRemove_self _ _
        · show mapRemove s.applied_deposits transaction_id k = none ∨
            mapInsert s.disputed_deposits transaction_id d k = none
          rw [mapRemove_ne _ hqk, mapInsert_ne _ _ hqk]
          exact hInv.disj_ad k
      · intro k hk
        by_cases hqk : k = transaction_id
        · subst hqk
          exact hInv.keys_le k (Or.inl (by simp [ha]))
        · apply hInv.keys_le k
          rcases hk with h | h
          · left
            have h' : (mapRemove s.applied_deposits transaction_id k).isSome := h
            rw [mapRemove_ne _ hqk] at h'
            exact h'
          · right
            have h' : (mapInsert s.disputed_deposits transaction_id d k).isSome := h
            rw [mapInsert_ne _ _ hqk] at h'
            exact h'
      · show hb ≤ Decimal.MAX
        rw [hhb]
        exact hhi
      · exact hInv.total_ub
      · exact hInv.total_nonneg

theorem inv_apply_resolve {s : ClientAccount} {transaction_id : TransactionId}
    (hInv : LedgerInv s) : LedgerInv (s.apply_resolve transaction_id).2 := by
  rcases hd : s.disputed_deposits transaction_id with _ | d
  · rw [apply_resolve_skip hd]
    exact hInv
  · rw [apply_resolve_applies hd]
    obtain ⟨hd_pos, hd_le⟩ := hInv.disputed_ok transaction_id d hd
    have hamt_held : d.amount ≤ s.held_balance := hInv.disputed_le_held hd
    refine ⟨?_, ?_, ?_, ?_, ?_, ?_, ?_, ?_, ?_⟩
    · show s.total_balance = s.available_balance + d.amount + (s.held_balance - d.amount)
      rw [hInv.bal]
      ring
    · obtain ⟨fs, hfs, hsum⟩ := hInv.held_sum
      refine ⟨fs.erase transaction_id, support_erase hfs transaction_id, ?_⟩
      show s.held_balance - d.amount = _
      have := sum_mapRemove hfs hd
      rw [hsum] at *
      linarith [sum_mapRemove hfs hd]
    · intro k v hk
      have hk' : mapInsert s.applied_deposits transaction_id d k = some v := hk
      by_cases hqk : k = transaction_id
      · subst hqk
        rw [mapInsert_self] at hk'
        cases hk'
        exact ⟨hd_pos, hd_le⟩
      · rw [mapInsert_ne _ _ hqk] at hk'
        exact hInv.applied_ok k v hk'
    · intro k v hk
      have hk' : mapRemove s.disputed_deposits transaction_id k = some v := hk
      by_cases hqk : k = transaction_id
      · subst hqk
        rw [mapRemove_self] at hk'
        exact absurd hk' (by simp)
      · rw [mapRemove_ne _ hqk] at hk'
        exact hInv.disputed_ok k v hk'
    · intro k
      by_cases hqk : k = transaction_id
      · subst hqk
        right
        exact mapRemove_self _ _
      · show mapInsert s.applied_deposits transaction_id d k = none ∨
          mapRemove s.disputed_deposits transaction_id k = none
        rw [mapInsert_ne _ _ hqk, mapRemove_ne _ hqk]
        exact hInv.disj_ad k
    · intro k hk
      by_cases hqk : k = transaction_id
      · subst hqk
        exact hInv.keys_le k (Or.inr (by simp [hd]))
      · apply hInv.keys_le k
        rcases hk with h | h
        · left
          have h' : (mapInsert s.applied_deposits transaction_id d k).isSome := h
          rw [mapInsert_ne _ _ hqk] at h'
          exact h'
        · right
          have h' : (mapRemove s.disputed_deposits transaction_id k).isSome := h
          rw [mapRemove_ne _ hqk] at h'
          exact h'
    · show s.held_balance - d.amount ≤ Decimal.MAX
      have := hInv.held_ub
      linarith
    · exact hInv.total_ub
    · exact hInv.total_nonneg

theorem inv_apply_chargeback {s : ClientAccount} {transaction_id : TransactionId}
    (hInv : LedgerInv s) : LedgerInv (s.apply_chargeback transaction_id).2 := by
  rcases hd : s.disputed_deposits transaction_id with _ | d
  · rw [apply_chargeback_skip hd]
    exact hInv
  · rw [apply_chargeback_applies hd]
    obtain ⟨hd_pos, hd_le⟩ := hInv.disputed_ok transaction_id d hd
    refine ⟨?_, ?_, ?_, ?_, ?_, ?_, ?_, ?_, ?_⟩
    · show s.total_balance - d.amount = s.available_balance + (s.held_balance - d.amount)
      rw [hInv.bal]
      ring
    · obtain ⟨fs, hfs, hsum⟩ := hInv.held_sum
      refine ⟨fs.erase transaction_id, support_erase hfs transaction_id, ?_⟩
      show s.held_balance - d.amount = _
      rw [hsum] at *
      linarith [sum_mapRemove hfs hd]
    · exact hInv.applied_ok
    · intro k v hk
      have hk' : mapRemove s.disputed_deposits transaction_id k = some v := hk
      by_cases hqk : k = transaction_id
      · subst hqk
        rw [mapRemove_self] at hk'
        exact absurd hk' (by simp)
      · rw [mapRemove_ne _ hqk] at hk'
        exact hInv.disputed_ok k v hk'
    · intro k
      by_cases hqk : k = transaction_id
      · subst hqk
        right
        exact mapRemove_self _ _
      · show s.applied_deposits k = none ∨
          mapRemove s.disputed_deposits transaction_id k = none
        rw [mapRemove_ne _ hqk]
        exact hInv.disj_ad k
    · intro k hk
      apply hInv.keys_le k
      rcases hk with h | h
      · left
        exact h
      · right
        have h' : (mapRemove s.disputed_deposits transaction_id k).isSome := h
        by_cases hqk : k = transaction_id
        · subst hqk
          rw [mapRemove_self] at h'
          exact absurd h' (by simp)
        · rw [mapRemove_ne _ hqk] at h'
          exact h'
    · show s.held_balance - d.amount ≤ Decimal.MAX
      have := hInv.held_ub
      linarith
    · show s.total_balance - d.amount ≤ Decimal.MAX
      have := hInv.total_ub
      linarith
    · intro h
      have h' : true = false := h
      exact Bool.noConfusion h'

theorem inv_apply_transaction {s : ClientAccount} {t : Transaction}
    (hInv : LedgerInv s) (hpos : t.PositiveAmounts) :
    LedgerInv (s.apply_transaction t).2 := by
  cases hl : s.locked with
  | true =>
    rw [apply_transaction_locked t hl]
    exact hInv
  | false =>
    rw [apply_transaction_snd t hl]
    cases hact : t.action with
    | Deposit d =>
      have hp : 0 < d.amount := by
        have := hpos
        unfold Transaction.PositiveAmounts at this
        rw [hact] at this
        exact this
      simp only [ClientAccount.apply_action, hact]
      exact inv_apply_deposit hInv hl hp
    | Withdrawal w =>
      have hp : 0 < w.amount := by
        have := hpos
        unfold Transaction.PositiveAmounts at this
        rw [hact] at this
        exact this
      simp only [ClientAccount.apply_action, hact]
      exact inv_apply_withdrawal hInv hp
    | Dispute =>
      simp only [ClientAccount.apply_action, hact]
      exact inv_apply_dispute hInv
    | Resolve =>
      simp only [ClientAccount.apply_action, hact]
      exact inv_apply_resolve hInv
    | Chargeback =>
      simp only [ClientAccount.apply_action, hact]
      exact inv_apply_chargeback hInv

theorem reachable_inv {s : ClientAccount} (h : Reachable s) : LedgerInv s := by
  induction h with
  | base client_id => exact LedgerInv.new client_id
  | step s t _ hp ih => exact inv_apply_transaction ih hp

/- ## Further helper lemmas -/

theorem is_in_order_false {s : ClientAccount} {l transaction_id : TransactionId}
    (h : s.last_transaction_id = some l) (hle : transaction_id ≤ l) :
    s.is_transaction_in_order transaction_id = false := by
  cases hb : s.is_transaction_in_order transaction_id with
  | false => rfl
  | true => exact absurd (lt_of_in_order h hb) (not_lt.mpr hle)

theorem action_error_state_unchanged {s : ClientAccount} {t : Transaction} {e : String}
    (h : (s.apply_action t).1 = Except.error e) : (s.apply_action t).2 = s := by
  obtain ⟨c, transaction_id, act⟩ := t
  cases act with
  | Deposit d =>
    cases hord : s.is_transaction_in_order transaction_id with
    | false =>
      have hs := apply_deposit_skip hord d
      have h' : (s.apply_deposit transaction_id d).1 = Except.error e := h
      rw [hs] at h'
      exact absurd h' (by simp)
    | true =>
      rcases hca : Decimal.checked_add s.total_balance d.amount with _ | tb
      · show (s.apply_deposit transaction_id d).2 = s
        rw [apply_deposit_overflow hord hca]
      · have h' : (s.apply_deposit transaction_id d).1 = Except.error e := h
        rw [apply_deposit_applies hord hca] at h'
        exact absurd h' (by simp)
  | Withdrawal w =>
    cases hord : s.is_transaction_in_order transaction_id with
    | false =>
      have h' : (s.apply_withdrawal transaction_id w).1 = Except.error e := h
      rw [apply_withdrawal_skip hord w] at h'
      exact absurd h' (by simp)
    | true =>
      by_cases hgt : w.amount > s.available_balance
      · show (s.apply_withdrawal transaction_id w).2 = s
        rw [apply_withdrawal_insufficient hord hgt]
      · have h' : (s.apply_withdrawal transaction_id w).1 = Except.error e := h
        rw [apply_withdrawal_applies hord hgt] at h'
        exact absurd h' (by simp)
  | Dispute =>
    rcases ha : s.applied_deposits transaction_id with _ | d
    · have h' : (s.apply_dispute transaction_id).1 = Except.error e := h
      rw [apply_dispute_skip ha] at h'
      exact absurd h' (by simp)
    · rcases hca : Decimal.checked_add s.held_balance d.amount with _ | hb
      · show (s.apply_dispute transaction_id).2 = s
        rw [apply_dispute_overflow ha hca]
      · have h' : (s.apply_dispute transaction_id).1 = Except.error e := h
        rw [apply_dispute_applies ha hca] at h'
        exact absurd h' (by simp)
  | Resolve =>
    rcases hd : s.disputed_deposits transaction_id with _ | d
    · have h' : (s.apply_resolve transaction_id).1 = Except.error e := h
      rw [apply_resolve_skip hd] at h'
      exact absurd h' (by simp)
    · have h' : (s.apply_resolve transaction_id).1 = Except.error e := h
      rw [apply_resolve_applies hd] at h'
      exact absurd h' (by simp)
  | Chargeback =>
    rcases hd : s.disputed_deposits transaction_id with _ | d
    · have h' : (s.apply_chargeback transaction_id).1 = Except.error e := h
      rw [apply_chargeback_skip hd] at h'
      exact absurd h' (by simp)
    · have h' : (s.apply_chargeback transaction_id).1 = Except.error e := h
      rw [apply_chargeback_applies hd] at h'
      exact absurd h' (by simp)

theorem error_state_unchanged {s : ClientAccount} {t : Transaction} {e : String}
    (h : (s.apply_transaction t).1 = Except.error e) : (s.apply_transaction t).2 = s := by
  cases hl : s.locked with
  | true => rw [apply_transaction_locked t hl]
  | false =>
    rw [apply_transaction_snd t hl]
    rcases hr : (s.apply_action t).1 with e' | u
    · exact action_error_state_unchanged hr
    · rw [apply_transaction_of_ok hl hr] at h
      rw [hr] at h
      exact absurd h (by simp)

/- ## Claim theorems -/

/-- C1: for every ledger state reachable from a new account (zero balances,
unlocked, empty maps) by any sequence of `apply_transaction` calls with
strictly positive deposit/withdrawal amounts, the invariant
`total_balance == available_balance + held_balance` holds, regardless of which
calls succeeded or failed. -/
theorem C1_total_balance_invariant (s : ClientAccount) (h : Reachable s) :
    s.total_balance = s.available_balance + s.held_balance :=
  (reachable_inv h).bal

theorem C1_total_balance_invariant_witness :
    (((ClientAccount.new 1).apply_transaction (mkDeposit 1 5)).2).total_balance =
      (((ClientAccount.new 1).apply_transaction (mkDeposit 1 5)).2).available_balance +
        (((ClientAccount.new 1).apply_transaction (mkDeposit 1 5)).2).held_balance :=
  C1_total_balance_invariant _
    (Reachable.step _ _ (Reachable.base 1)
      (by show (0 : ℚ) < 5; norm_num))

/-- C2: on a locked account, every transaction is rejected with an error whose
description contains "Account is locked", every field of the account is left
exactly unchanged, and in particular the lock flag stays set forever. -/
theorem C2_locked_rejects_everything (s : ClientAccount) (t : Transaction)
    (h : s.locked = true) :
    (∃ p, (s.apply_transaction t).1 = Except.error (p ++ "Account is locked")) ∧
    (s.apply_transaction t).2 = s ∧
    ((s.apply_transaction t).2).locked = true := by
  rw [apply_transaction_locked t h]
  refine ⟨⟨"Failed to apply " ++ t.to_string ++ ": ", ?_⟩, rfl, h⟩
  rw [String.append_assoc ("Failed to apply " ++ t.to_string) ": " "Account is locked"]
  rfl

theorem C2_locked_rejects_everything_witness :
    (∃ p, (({ ClientAccount.new 1 with locked := true }).apply_transaction
        (mkDeposit 1 5)).1 = Except.error (p ++ "Account is locked")) ∧
    (({ ClientAccount.new 1 with locked := true }).apply_transaction (mkDeposit 1 5)).2 =
      { ClientAccount.new 1 with locked := true } ∧
    ((({ ClientAccount.new 1 with locked := true }).apply_transaction
        (mkDeposit 1 5)).2).locked = true :=
  C2_locked_rejects_everything _ _ rfl

/-- C3: whenever `apply_transaction` returns an error, the state of the account
after the call equals the state before the call in every field (failure is
atomic; no partial mutation survives a failing path). -/
theorem C3_failure_is_atomic (s : ClientAccount) (t : Transaction) (e : String)
    (h : (s.apply_transaction t).1 = Except.error e) :
    (s.apply_transaction t).2 = s :=
  error_state_unchanged h

theorem C3_failure_is_atomic_witness :
    (((ClientAccount.new 1).apply_transaction (mkWithdrawal 1 1)).2) =
      ClientAccount.new 1 :=
  C3_failure_is_atomic _ _
    "Failed to apply withdrawal with transaction ID 1: Insufficient available balance for withdrawal"
    rfl

theorem out_of_order_noop {s : ClientAccount} {t : Transaction}
    (hl : s.locked = false) (hdw : t.IsDepositOrWithdrawal)
    (hord : s.is_transaction_in_order t.transaction_id = false) :
    s.apply_transaction t = (Except.ok (), s) := by
  obtain ⟨c, transaction_id, act⟩ := t
  cases act with
  | Deposit d =>
    have hr : (⟨c, transaction_id, TransactionAction.Deposit d⟩ : Transaction).transaction_id =
      transaction_id := rfl
    rw [hr] at hord
    have ha : ClientAccount.apply_action s ⟨c, transaction_id, TransactionAction.Deposit d⟩ =
        (Except.ok (), s) := apply_deposit_skip hord d
    rw [apply_transaction_of_ok hl (by rw [ha]), ha]
  | Withdrawal w =>
    have hr : (⟨c, transaction_id, TransactionAction.Withdrawal w⟩ : Transaction).transaction_id =
      transaction_id := rfl
    rw [hr] at hord
    have ha : ClientAccount.apply_action s ⟨c, transaction_id, TransactionAction.Withdrawal w⟩ =
        (Except.ok (), s) := apply_withdrawal_skip hord w
    rw [apply_transaction_of_ok hl (by rw [ha]), ha]
  | Dispute => exact hdw.elim
  | Resolve => exact hdw.elim
  | Chargeback => exact hdw.elim

theorem retry_after_ok {s : ClientAccount} {t : Transaction}
    (hl : s.locked = false) (hdw : t.IsDepositOrWithdrawal)
    (hok : (s.apply_transaction t).1 = Except.ok ()) :
    ((s.apply_transaction t).2).apply_transaction t =
      (Except.ok (), (s.apply_transaction t).2) := by
  obtain ⟨c, transaction_id, act⟩ := t
  cases act with
  | Deposit d =>
    cases hord : s.is_transaction_in_order transaction_id with
    | false =>
      have h1 := out_of_order_noop hl hdw hord
      rw [h1]
      exact out_of_order_noop hl hdw hord
    | true =>
      rcases hca : Decimal.checked_add s.total_balance d.amount with _ | tb
      · have ha : (ClientAccount.apply_action s
            ⟨c, transaction_id, TransactionAction.Deposit d⟩).1 =
            Except.error "Deposit would cause balance overflow" := by
          show (s.apply_deposit transaction_id d).1 = _
          rw [apply_deposit_overflow hord hca]
        rw [apply_transaction_of_error hl ha] at hok
        exact absurd hok (by simp)
      · have ha : ClientAccount.apply_action s
            ⟨c, transaction_id, TransactionAction.Deposit d⟩ =
            (Except.ok (), _) := apply_deposit_applies hord hca
        rw [apply_transaction_of_ok hl (by rw [ha]), ha]
        exact out_of_order_noop hl hdw (is_in_order_false rfl (le_refl transaction_id))
  | Withdrawal w =>
    cases hord : s.is_transaction_in_order transaction_id with
    | false =>
      have h1 := out_of_order_noop hl hdw hord
      rw [h1]
      exact out_of_order_noop hl hdw hord
    | true =>
      by_cases hgt : w.amount > s.available_balance
      · have ha : (ClientAccount.apply_action s
            ⟨c, transaction_id, TransactionAction.Withdrawal w⟩).1 =
            Except.error "Insufficient available balance for withdrawal" := by
          show (s.apply_withdrawal transaction_id w).1 = _
          rw [apply_withdrawal_insufficient hord hgt]
        rw [apply_transaction_of_error hl ha] at hok
        exact absurd hok (by simp)
      · have ha : ClientAccount.apply_action s
            ⟨c, transaction_id, TransactionAction.Withdrawal w⟩ =
            (Except.ok (), _) := apply_withdrawal_applies hord hgt
        rw [apply_transaction_of_ok hl (by rw [ha]), ha]
        exact out_of_order_noop hl hdw (is_in_order_false rfl (le_refl transaction_id))
  | Dispute => exact hdw.elim
  | Resolve => exact hdw.elim
  | Chargeback => exact hdw.elim

/-- C4: for every unlocked state with highwater mark `some l` and every deposit
or withdrawal whose id is at most `l`, `apply_transaction` returns success and
changes nothing; a deposit or withdrawal that is actually applied sets the
highwater mark to its own id; and applying the same deposit or withdrawal
twice in a row yields the same final state (hence the same balances) as
applying it once. -/
theorem C4_ordering_idempotency :
    (∀ (s : ClientAccount) (t : Transaction) (l : TransactionId),
      s.locked = false → t.IsDepositOrWithdrawal →
      s.last_transaction_id = some l → t.transaction_id ≤ l →
      s.apply_transaction t = (Except.ok (), s)) ∧
    (∀ (s : ClientAccount) (t : Transaction),
      s.locked = false → t.IsDepositOrWithdrawal →
      s.is_transaction_in_order t.transaction_id = true →
      (s.apply_transaction t).1 = Except.ok () →
      ((s.apply_transaction t).2).last_transaction_id = some t.transaction_id) ∧
    (∀ (s : ClientAccount) (t : Transaction),
      s.locked = false → t.IsDepositOrWithdrawal →
      (((s.apply_transaction t).2).apply_transaction t).2 = (s.apply_transaction t).2) := by
  refine ⟨?_, ?_, ?_⟩
  · intro s t l hl hdw hlast hle
    exact out_of_order_noop hl hdw (is_in_order_false hlast hle)
  · intro s t hl hdw hord hok
    obtain ⟨c, transaction_id, act⟩ := t
    cases act with
    | Deposit d =>
      rcases hca : Decimal.checked_add s.total_balance d.amount with _ | tb
      · have ha : (ClientAccount.apply_action s
            ⟨c, transaction_id, TransactionAction.Deposit d⟩).1 =
            Except.error "Deposit would cause balance overflow" := by
          show (s.apply_deposit transaction_id d).1 = _
          rw [apply_deposit_overflow hord hca]
        rw [apply_transaction_of_error hl ha] at hok
        exact absurd hok (by simp)
      · have ha : ClientAccount.apply_action s
            ⟨c, transaction_id, TransactionAction.Deposit d⟩ =
            (Except.ok (), _) := apply_deposit_applies hord hca
        rw [apply_transaction_of_ok hl (by rw [ha]), ha]
    | Withdrawal w =>
      by_cases hgt : w.amount > s.available_balance
      · have ha : (ClientAccount.apply_action s
            ⟨c, transaction_id, TransactionAction.Withdrawal w⟩).1 =
            Except.error "Insufficient available balance for withdrawal" := by
          show (s.apply_withdrawal transaction_id w).1 = _
          rw [apply_withdrawal_insufficient hord hgt]
        rw [apply_transaction_of_error hl ha] at hok
        exact absurd hok (by simp)
      · have ha : ClientAccount.apply_action s
            ⟨c, transaction_id, TransactionAction.Withdrawal w⟩ =
            (Except.ok (), _) := apply_withdrawal_applies hord hgt
        rw [apply_transaction_of_ok hl (by rw [ha]), ha]
    | Dispute => exact hdw.elim
    | Resolve => exact hdw.elim
    | Chargeback => exact hdw.elim
  · intro s t hl hdw
    rcases hr : (s.apply_transaction t).1 with e | u
    · have h2 : (s.apply_transaction t).2 = s := error_state_unchanged hr
      rw [h2]
      exact h2
    · rw [retry_after_ok hl hdw hr]

theorem C4_ordering_idempotency_witness :
    ((((ClientAccount.new 1).apply_transaction (mkDeposit 5 7)).2).apply_transaction
      (mkDeposit 3 2)) = (Except.ok (),
        (((ClientAccount.new 1).apply_transaction (mkDeposit 5 7)).2)) :=
  C4_ordering_idempotency.1 _ (mkDeposit 3 2) 5 (by with_unfolding_all rfl) trivial
    (by with_unfolding_all rfl) (by decide)

/- ## Whole-call equations per action -/

theorem tx_deposit_ok {s : ClientAccount} {c tid : Nat} {d : Deposit}
    (hl : s.locked = false) (hord : s.is_transaction_in_order tid = true)
    (h1 : -Decimal.MAX ≤ s.total_balance + d.amount)
    (h2 : s.total_balance + d.amount ≤ Decimal.MAX) :
    s.apply_transaction ⟨c, tid, TransactionAction.Deposit d⟩ =
      (Except.ok (),
        { s with
          total_balance := s.total_balance + d.amount
          available_balance := s.available_balance + d.amount
          applied_deposits := mapInsert s.applied_deposits tid d
          last_transaction_id := some tid }) := by
  have hca := Decimal.checked_add_eq_some h1 h2
  have ha : ClientAccount.apply_action s ⟨c, tid, TransactionAction.Deposit d⟩ =
      (Except.ok (), _) := apply_deposit_applies hord hca
  rw [apply_transaction_of_ok hl (by rw [ha]), ha]

theorem tx_withdrawal_ok {s : ClientAccount} {c tid : Nat} {w : Withdrawal}
    (hl : s.locked = false) (hord : s.is_transaction_in_order tid = true)
    (hle : ¬ w.amount > s.available_balance) :
    s.apply_transaction ⟨c, tid, TransactionAction.Withdrawal w⟩ =
      (Except.ok (),
        { s with
          available_balance := s.available_balance - w.amount
          total_balance := s.total_balance - w.amount
          last_transaction_id := some tid }) := by
  have ha : ClientAccount.apply_action s ⟨c, tid, TransactionAction.Withdrawal w⟩ =
      (Except.ok (), _) := apply_withdrawal_applies hord hle
  rw [apply_transaction_of_ok hl (by rw [ha]), ha]

theorem tx_dispute_noop {s : ClientAccount} {c tid : Nat}
    (hl : s.locked = false) (ha : s.applied_deposits tid = none) :
    s.apply_transaction ⟨c, tid, TransactionAction.Dispute⟩ = (Except.ok (), s) := by
  have hr : ClientAccount.apply_action s ⟨c, tid, TransactionAction.Dispute⟩ =
      (Except.ok (), s) := apply_dispute_skip ha
  rw [apply_transaction_of_ok hl (by rw [hr]), hr]

theorem tx_dispute_ok {s : ClientAccount} {c tid : Nat} {d : Deposit}
    (hl : s.locked = false) (ha : s.applied_deposits tid = some d)
    (h1 : -Decimal.MAX ≤ s.held_balance + d.amount)
    (h2 : s.held_balance + d.amount ≤ Decimal.MAX) :
    s.apply_transaction ⟨c, tid, TransactionAction.Dispute⟩ =
      (Except.ok (),
        { s with
          available_balance := s.available_balance - d.amount
          held_balance := s.held_balance + d.amount
          applied_deposits := mapRemove s.applied_deposits tid
          disputed_deposits := mapInsert s.disputed_deposits tid d }) := by
  have hca := Decimal.checked_add_eq_some h1 h2
  have hr : ClientAccount.apply_action s ⟨c, tid, TransactionAction.Dispute⟩ =
      (Except.ok (), _) := apply_dispute_applies ha hca
  rw [apply_transaction_of_ok hl (by rw [hr]), hr]

theorem tx_dispute_overflow {s : ClientAccount} {c tid : Nat} {d : Deposit}
    (hl : s.locked = false) (ha : s.applied_deposits tid = some d)
    (hov : s.held_balance + d.amount > Decimal.MAX ∨
      s.held_balance + d.amount < -Decimal.MAX) :
    s.apply_transaction ⟨c, tid, TransactionAction.Dispute⟩ =
      (Except.error ("Failed to apply dispute for transaction ID " ++ toString tid ++
        ": Dispute would cause held balance overflow"), s) := by
  have hca := Decimal.checked_add_eq_none hov
  have hr : ClientAccount.apply_action s ⟨c, tid, TransactionAction.Dispute⟩ =
      (Except.error "Dispute would cause held balance overflow", s) :=
    apply_dispute_overflow ha hca
  have h2 : (ClientAccount.apply_action s ⟨c, tid, TransactionAction.Dispute⟩).2 = s := by
    rw [hr]
  rw [apply_transaction_of_error hl (by rw [hr]), h2]
  refine Prod.ext ?_ rfl
  show Except.error ("Failed to apply " ++ ("dispute for transaction ID " ++ toString tid) ++
    ": " ++ "Dispute would cause held balance overflow") = _
  rw [← String.append_assoc "Failed to apply " "dispute for transaction ID " (toString tid)]
  rw [String.append_assoc ("Failed to apply " ++ "dispute for transaction ID " ++ toString tid)
    ": " "Dispute would cause held balance overflow"]
  rfl

theorem tx_resolve_noop {s : ClientAccount} {c tid : Nat}
    (hl : s.locked = false) (hd : s.disputed_deposits tid = none) :
    s.apply_transaction ⟨c, tid, TransactionAction.Resolve⟩ = (Except.ok (), s) := by
  have hr : ClientAccount.apply_action s ⟨c, tid, TransactionAction.Resolve⟩ =
      (Except.ok (), s) := apply_resolve_skip hd
  rw [apply_transaction_of_ok hl (by rw [hr]), hr]

theorem tx_resolve_ok {s : ClientAccount} {c tid : Nat} {d : Deposit}
    (hl : s.locked = false) (hd : s.disputed_deposits tid = some d) :
    s.apply_transaction ⟨c, tid, TransactionAction.Resolve⟩ =
      (Except.ok (),
        { s with
          available_balance := s.available_balance + d.amount
          held_balance := s.held_balance - d.amount
          disputed_deposits := mapRemove s.disputed_deposits tid
          applied_deposits := mapInsert s.applied_deposits tid d }) := by
  have hr : ClientAccount.apply_action s ⟨c, tid, TransactionAction.Resolve⟩ =
      (Except.ok (), _) := apply_resolve_applies hd
  rw [apply_transaction_of_ok hl (by rw [hr]), hr]

theorem tx_chargeback_noop {s : ClientAccount} {c tid : Nat}
    (hl : s.locked = false) (hd : s.disputed_deposits tid = none) :
    s.apply_transaction ⟨c, tid, TransactionAction.Chargeback⟩ = (Except.ok (), s) := by
  have hr : ClientAccount.apply_action s ⟨c, tid, TransactionAction.Chargeback⟩ =
      (Except.ok (), s) := apply_chargeback_skip hd
  rw [apply_transaction_of_ok hl (by rw [hr]), hr]

theorem tx_chargeback_ok {s : ClientAccount} {c tid : Nat} {d : Deposit}
    (hl : s.locked = false) (hd : s.disputed_deposits tid = some d) :
    s.apply_transaction ⟨c, tid, TransactionAction.Chargeback⟩ =
      (Except.ok (),
        { s with
          held_balance := s.held_balance - d.amount
          total_balance := s.total_balance - d.amount
          chargedback_deposits := mapInsert s.chargedback_deposits tid d
          disputed_deposits := mapRemove s.disputed_deposits tid
          locked := true }) := by
  have hr : ClientAccount.apply_action s ⟨c, tid, TransactionAction.Chargeback⟩ =
      (Except.ok (), _) := apply_chargeback_applies hd
  rw [apply_transaction_of_ok hl (by rw [hr]), hr]

/-- C5 counterexample: on a fresh (unlocked) account, the withdrawal with
transaction ID 1 of amount 1 fails with `InsufficientFunds`; re-invoking
`apply_transaction` with the same transaction is NOT rejected as an
out-of-order success: the second call returns the same error again, not
`Ok(())`. -/
theorem C5_counterexample_retry_not_ok :
    (ClientAccount.new 1).locked = false ∧
    (mkWithdrawal 1 1).IsDepositOrWithdrawal ∧
    ((((ClientAccount.new 1).apply_transaction (mkWithdrawal 1 1)).2).apply_transaction
        (mkWithdrawal 1 1)).1 =
      Except.error "Failed to apply withdrawal with transaction ID 1: Insufficient available balance for withdrawal" ∧
    ¬ ((((ClientAccount.new 1).apply_transaction (mkWithdrawal 1 1)).2).apply_transaction
        (mkWithdrawal 1 1)).1 = Except.ok () := by
  have he : ((((ClientAccount.new 1).apply_transaction (mkWithdrawal 1 1)).2).apply_transaction
      (mkWithdrawal 1 1)).1 =
      Except.error "Failed to apply withdrawal with transaction ID 1: Insufficient available balance for withdrawal" := by
    with_unfolding_all rfl
  refine ⟨rfl, trivial, he, ?_⟩
  intro hok
  rw [he] at hok
  exact Except.noConfusion hok

/-- C5 (amended): for every state and every deposit or withdrawal transaction,
after one call to `apply_transaction` with that transaction: if that call
returned success, a second call with the same transaction returns success and
leaves the state unchanged; if it returned an error, the state was already
unchanged and the second call returns the very same result.  In neither case
is the transaction double-applied. -/
theorem C5_retry_never_double_applies (s : ClientAccount) (t : Transaction)
    (hdw : t.IsDepositOrWithdrawal) :
    ((s.apply_transaction t).1 = Except.ok () →
      ((s.apply_transaction t).2).apply_transaction t =
        (Except.ok (), (s.apply_transaction t).2)) ∧
    (∀ e, (s.apply_transaction t).1 = Except.error e →
      (s.apply_transaction t).2 = s ∧
      ((s.apply_transaction t).2).apply_transaction t = s.apply_transaction t) := by
  constructor
  · intro hok
    cases hl : s.locked with
    | true =>
      rw [apply_transaction_locked t hl] at hok
      exact absurd hok (by simp)
    | false => exact retry_after_ok hl hdw hok
  · intro e herr
    have h2 : (s.apply_transaction t).2 = s := error_state_unchanged herr
    exact ⟨h2, by rw [h2]⟩

theorem C5_retry_never_double_applies_witness :
    (((ClientAccount.new 1).apply_transaction (mkDeposit 1 5)).2).apply_transaction
        (mkDeposit 1 5) =
      (Except.ok (), ((ClientAccount.new 1).apply_transaction (mkDeposit 1 5)).2) :=
  (C5_retry_never_double_applies (ClientAccount.new 1) (mkDeposit 1 5) trivial).1
    (by with_unfolding_all rfl)

/-- C6: dispute semantics on an unlocked account.  If the disputed id is not a
key of `applied_deposits`, the call succeeds and changes nothing.  If it is a
key with amount `a` and `held_balance + a` stays in range, the entry moves
from `applied_deposits` to `disputed_deposits`, `available_balance` decreases
by `a` (possibly becoming negative — still success) and `held_balance`
increases by `a`.  If `held_balance + a` leaves the representable range, the
call fails with the held-balance-overflow error and the state is untouched. -/
theorem C6_dispute_semantics :
    (∀ (s : ClientAccount) (c tid : Nat), s.locked = false →
      s.applied_deposits tid = none →
      s.apply_transaction ⟨c, tid, TransactionAction.Dispute⟩ = (Except.ok (), s)) ∧
    (∀ (s : ClientAccount) (c tid : Nat) (d : Deposit), s.locked = false →
      s.applied_deposits tid = some d →
      -Decimal.MAX ≤ s.held_balance + d.amount →
      s.held_balance + d.amount ≤ Decimal.MAX →
      s.apply_transaction ⟨c, tid, TransactionAction.Dispute⟩ =
        (Except.ok (),
          { s with
            available_balance := s.available_balance - d.amount
            held_balance := s.held_balance + d.amount
            applied_deposits := mapRemove s.applied_deposits tid
            disputed_deposits := mapInsert s.disputed_deposits tid d })) ∧
    (∀ (s : ClientAccount) (c tid : Nat) (d : Deposit), s.locked = false →
      s.applied_deposits tid = some d →
      (s.held_balance + d.amount > Decimal.MAX ∨
        s.held_balance + d.amount < -Decimal.MAX) →
      s.apply_transaction ⟨c, tid, TransactionAction.Dispute⟩ =
        (Except.error ("Failed to apply dispute for transaction ID " ++ toString tid ++
          ": Dispute would cause held balance overflow"), s)) := by
  refine ⟨?_, ?_, ?_⟩
  · intro s c tid hl ha
    exact tx_dispute_noop hl ha
  · intro s c tid d hl ha h1 h2
    exact tx_dispute_ok hl ha h1 h2
  · intro s c tid d hl ha hov
    exact tx_dispute_overflow hl ha hov

theorem C6_dispute_semantics_witness :
    (ClientAccount.new 1).apply_transaction ⟨1, 999, TransactionAction.Dispute⟩ =
      (Except.ok (), ClientAccount.new 1) :=
  C6_dispute_semantics.1 (ClientAccount.new 1) 1 999 rfl rfl

/-- C7: chargeback semantics on an unlocked account.  If the id is not a key
of `disputed_deposits`, the call succeeds, changes nothing and does not lock
the account.  If it is a key with amount `a`, the entry moves to
`chargedback_deposits`, `held_balance` and `total_balance` each decrease by
`a`, the account becomes locked, and every subsequent call is rejected with
`AccountLocked`.  In particular Deposit(1, a) → Dispute(1) → Chargeback(1) on
a fresh account yields zero balances and a locked account. -/
theorem C7_chargeback_semantics :
    (∀ (s : ClientAccount) (c tid : Nat), s.locked = false →
      s.disputed_deposits tid = none →
      s.apply_transaction ⟨c, tid, TransactionAction.Chargeback⟩ = (Except.ok (), s) ∧
      ((s.apply_transaction ⟨c, tid, TransactionAction.Chargeback⟩).2).locked = false) ∧
    (∀ (s : ClientAccount) (c tid : Nat) (d : Deposit), s.locked = false →
      s.disputed_deposits tid = some d →
      s.apply_transaction ⟨c, tid, TransactionAction.Chargeback⟩ =
        (Except.ok (),
          { s with
            held_balance := s.held_balance - d.amount
            total_balance := s.total_balance - d.amount
            chargedback_deposits := mapInsert s.chargedback_deposits tid d
            disputed_deposits := mapRemove s.disputed_deposits tid
            locked := true }) ∧
      (∀ t' : Transaction,
        ((s.apply_transaction ⟨c, tid, TransactionAction.Chargeback⟩).2).apply_transaction t' =
          (Except.error ("Failed to apply " ++ t'.to_string ++ ": Account is locked"),
            (s.apply_transaction ⟨c, tid, TransactionAction.Chargeback⟩).2))) ∧
    (∀ a : Decimal, 0 < a → a ≤ Decimal.MAX →
      ((((ClientAccount.new 1).apply_transaction (mkDeposit 1 a)).2.apply_transaction
          (mkDispute 1)).2.apply_transaction (mkChargeback 1)).2.available_balance = 0 ∧
      ((((ClientAccount.new 1).apply_transaction (mkDeposit 1 a)).2.apply_transaction
          (mkDispute 1)).2.apply_transaction (mkChargeback 1)).2.held_balance = 0 ∧
      ((((ClientAccount.new 1).apply_transaction (mkDeposit 1 a)).2.apply_transaction
          (mkDispute 1)).2.apply_transaction (mkChargeback 1)).2.total_balance = 0 ∧
      ((((ClientAccount.new 1).apply_transaction (mkDeposit 1 a)).2.apply_transaction
          (mkDispute 1)).2.apply_transaction (mkChargeback 1)).2.locked = true) := by
  refine ⟨?_, ?_, ?_⟩
  · intro s c tid hl hd
    have h := tx_chargeback_noop (c := c) hl hd
    refine ⟨h, ?_⟩
    rw [h]
    exact hl
  · intro s c tid d hl hd
    have h := tx_chargeback_ok (c := c) hl hd
    refine ⟨h, ?_⟩
    intro u
    apply apply_transaction_locked u
    rw [h]
  · intro a ha hle
    have hM := Decimal.MAX_pos
    have e1 : (ClientAccount.new 1).apply_transaction
        (⟨1, 1, TransactionAction.Deposit ⟨a⟩⟩ : Transaction) = (Except.ok (), _) :=
      tx_deposit_ok rfl rfl
        (by show -Decimal.MAX ≤ (0 : ℚ) + a; linarith)
        (by show (0 : ℚ) + a ≤ Decimal.MAX; linarith)
    have g1 : ((ClientAccount.new 1).apply_transaction (mkDeposit 1 a)).2 =
        ⟨1, a, 0, a, false, some 1, mapInsert emptyMap 1 ⟨a⟩, emptyMap, emptyMap⟩ := by
      show ((ClientAccount.new 1).apply_transaction
        (⟨1, 1, TransactionAction.Deposit ⟨a⟩⟩ : Transaction)).2 = _
      rw [e1]
      apply ClientAccount.ext
      · rfl
      · show (0 : ℚ) + a = a
        ring
      · rfl
      · show (0 : ℚ) + a = a
        ring
      · rfl
      · rfl
      · rfl
      · rfl
      · rfl
    have e2 : (⟨1, a, 0, a, false, some 1, mapInsert emptyMap 1 ⟨a⟩, emptyMap, emptyMap⟩ :
        ClientAccount).apply_transaction
        (⟨1, 1, TransactionAction.Dispute⟩ : Transaction) = (Except.ok (), _) :=
      tx_dispute_ok rfl (mapInsert_self emptyMap 1 ⟨a⟩)
        (by show -Decimal.MAX ≤ (0 : ℚ) + a; linarith)
        (by show (0 : ℚ) + a ≤ Decimal.MAX; linarith)
    have g2 : ((⟨1, a, 0, a, false, some 1, mapInsert emptyMap 1 ⟨a⟩, emptyMap, emptyMap⟩ :
        ClientAccount).apply_transaction (mkDispute 1)).2 =
        ⟨1, 0, a, a, false, some 1, mapRemove (mapInsert emptyMap 1 ⟨a⟩) 1,
          mapInsert emptyMap 1 ⟨a⟩, emptyMap⟩ := by
      show ((⟨1, a, 0, a, false, some 1, mapInsert emptyMap 1 ⟨a⟩, emptyMap, emptyMap⟩ :
        ClientAccount).apply_transaction (⟨1, 1, TransactionAction.Dispute⟩ : Transaction)).2 = _
      rw [e2]
      apply ClientAccount.ext
      · rfl
      · show a - a = (0 : ℚ)
        ring
      · show (0 : ℚ) + a = a
        ring
      · rfl
      · rfl
      · rfl
      · rfl
      · rfl
      · rfl
    have e3 : (⟨1, 0, a, a, false, some 1, mapRemove (mapInsert emptyMap 1 ⟨a⟩) 1,
        mapInsert emptyMap 1 ⟨a⟩, emptyMap⟩ : ClientAccount).apply_transaction
        (⟨1, 1, TransactionAction.Chargeback⟩ : Transaction) = (Except.ok (), _) :=
      tx_chargeback_ok rfl (mapInsert_self emptyMap 1 ⟨a⟩)
    have g3 : ((⟨1, 0, a, a, false, some 1, mapRemove (mapInsert emptyMap 1 ⟨a⟩) 1,
        mapInsert emptyMap 1 ⟨a⟩, emptyMap⟩ : ClientAccount).apply_transaction
        (mkChargeback 1)).2 =
        ⟨1, 0, 0, 0, true, some 1, mapRemove (mapInsert emptyMap 1 ⟨a⟩) 1,
          mapRemove (mapInsert emptyMap 1 ⟨a⟩) 1, mapInsert emptyMap 1 ⟨a⟩⟩ := by
      show ((⟨1, 0, a, a, false, some 1, mapRemove (mapInsert emptyMap 1 ⟨a⟩) 1,
        mapInsert emptyMap 1 ⟨a⟩, emptyMap⟩ : ClientAccount).apply_transaction
        (⟨1, 1, TransactionAction.Chargeback⟩ : Transaction)).2 = _
      rw [e3]
      apply ClientAccount.ext
      · rfl
      · rfl
      · show a - a = (0 : ℚ)
        ring
      · show a - a = (0 : ℚ)
        ring
      · rfl
      · rfl
      · rfl
      · rfl
      · rfl
    rw [g1, g2, g3]
    exact ⟨rfl, rfl, rfl, rfl⟩

theorem C7_chargeback_semantics_witness :
    (ClientAccount.new 1).apply_transaction ⟨1, 42, TransactionAction.Chargeback⟩ =
      (Except.ok (), ClientAccount.new 1) ∧
    (((ClientAccount.new 1).apply_transaction
        ⟨1, 42, TransactionAction.Chargeback⟩).2).locked = false :=
  C7_chargeback_semantics.1 (ClientAccount.new 1) 1 42 rfl rfl

/-- C8: dispute followed by resolve is a round trip.  On every unlocked
reachable state in which `tid` is a key of `applied_deposits` and the
dispute's held-balance addition stays in range, Dispute(tid) then Resolve(tid)
both succeed and restore the entire account state exactly; in particular
Deposit(1, 12.5555) → Dispute(1) → Resolve(1) on a fresh account restores
available 12.5555, held 0, total 12.5555; and a resolve whose id is not in
`disputed_deposits` is a silent success changing nothing. -/
theorem C8_dispute_resolve_round_trip :
    (∀ (s : ClientAccount) (c tid : Nat) (d : Deposit), Reachable s →
      s.locked = false → s.applied_deposits tid = some d →
      -Decimal.MAX ≤ s.held_balance + d.amount →
      s.held_balance + d.amount ≤ Decimal.MAX →
      (s.apply_transaction ⟨c, tid, TransactionAction.Dispute⟩).1 = Except.ok () ∧
      ((s.apply_transaction ⟨c, tid, TransactionAction.Dispute⟩).2).apply_transaction
          ⟨c, tid, TransactionAction.Resolve⟩ = (Except.ok (), s)) ∧
    ((((((ClientAccount.new 1).apply_transaction (mkDeposit 1 12.5555)).2).apply_transaction
        (mkDispute 1)).2).apply_transaction (mkResolve 1)).2.available_balance = 12.5555 ∧
    ((((((ClientAccount.new 1).apply_transaction (mkDeposit 1 12.5555)).2).apply_transaction
        (mkDispute 1)).2).apply_transaction (mkResolve 1)).2.held_balance = 0 ∧
    ((((((ClientAccount.new 1).apply_transaction (mkDeposit 1 12.5555)).2).apply_transaction
        (mkDispute 1)).2).apply_transaction (mkResolve 1)).2.total_balance = 12.5555 ∧
    (∀ (s : ClientAccount) (c tid : Nat), s.locked = false →
      s.disputed_deposits tid = none →
      s.apply_transaction ⟨c, tid, TransactionAction.Resolve⟩ = (Except.ok (), s)) := by
  refine ⟨?_, ?_, ?_, ?_, ?_⟩
  · intro s c tid d hreach hl ha h1 h2
    have hdisp_none : s.disputed_deposits tid = none := by
      rcases (reachable_inv hreach).disj_ad tid with h | h
      · rw [ha] at h
        exact absurd h (by simp)
      · exact h
    have hstep := tx_dispute_ok (c := c) hl ha h1 h2
    constructor
    · rw [hstep]
    · rw [hstep]
      have hres := tx_resolve_ok (c := c)
        (s := { s with
          available_balance := s.available_balance - d.amount
          held_balance := s.held_balance + d.amount
          applied_deposits := mapRemove s.applied_deposits tid
          disputed_deposits := mapInsert s.disputed_deposits tid d })
        hl (mapInsert_self s.disputed_deposits tid d)
      rw [hres]
      refine Prod.ext rfl ?_
      apply ClientAccount.ext
      · rfl
      · show s.available_balance - d.amount + d.amount = s.available_balance
        ring
      · show s.held_balance + d.amount - d.amount = s.held_balance
        ring
      · rfl
      · rfl
      · rfl
      · show mapInsert (mapRemove s.applied_deposits tid) tid d = s.applied_deposits
        funext q
        by_cases hq : q = tid
        · subst hq
          rw [mapInsert_self, ha]
        · rw [mapInsert_ne _ _ hq, mapRemove_ne _ hq]
      · show mapRemove (mapInsert s.disputed_deposits tid d) tid = s.disputed_deposits
        funext q
        by_cases hq : q = tid
        · subst hq
          rw [mapRemove_self, hdisp_none]
        · rw [mapRemove_ne _ hq, mapInsert_ne _ _ hq]
      · rfl
  · with_unfolding_all rfl
  · with_unfolding_all rfl
  · with_unfolding_all rfl
  · intro s c tid hl hd
    exact tx_resolve_noop hl hd

theorem C8_dispute_resolve_round_trip_witness :
    ((((ClientAccount.new 1).apply_transaction (mkDeposit 1 5)).2).apply_transaction
        ⟨1, 1, TransactionAction.Dispute⟩).1 = Except.ok () ∧
    (((((ClientAccount.new 1).apply_transaction (mkDeposit 1 5)).2).apply_transaction
        ⟨1, 1, TransactionAction.Dispute⟩).2).apply_transaction
        ⟨1, 1, TransactionAction.Resolve⟩ =
      (Except.ok (), (((ClientAccount.new 1).apply_transaction (mkDeposit 1 5)).2)) :=
  C8_dispute_resolve_round_trip.1 _ 1 1 ⟨5⟩
    (Reachable.step _ _ (Reachable.base 1) (by show (0 : ℚ) < 5; norm_num))
    (by with_unfolding_all rfl) (by with_unfolding_all rfl)
    (by
      rw [show ((ClientAccount.new 1).apply_transaction (mkDeposit 1 5)).2.held_balance = 0
        from by with_unfolding_all rfl]
      show -Decimal.MAX ≤ (0 : ℚ) + 5
      norm_num [Decimal.MAX])
    (by
      rw [show ((ClientAccount.new 1).apply_transaction (mkDeposit 1 5)).2.held_balance = 0
        from by with_unfolding_all rfl]
      show (0 : ℚ) + 5 ≤ Decimal.MAX
      norm_num [Decimal.MAX])

/-- C9: arithmetic safety of the unchecked decimal operations.  On every
unlocked reachable state: the available-balance addition of a deposit stays in
range once the checked total addition succeeded; both subtractions of a
withdrawal stay in range after the insufficient-funds check; the
available-balance subtraction of a dispute stays in range once the checked
held addition succeeded; and all additions and subtractions of resolve and
chargeback stay in range.  Only the two checked additions can overflow. -/
theorem C9_unchecked_ops_stay_in_range (s : ClientAccount) (h : Reachable s)
    (hl : s.locked = false) :
    (∀ (d : Deposit) (tb : Decimal), 0 < d.amount →
      Decimal.checked_add s.total_balance d.amount = some tb →
      Decimal.InRange (s.available_balance + d.amount)) ∧
    (∀ w : Withdrawal, 0 < w.amount → ¬ w.amount > s.available_balance →
      Decimal.InRange (s.available_balance - w.amount) ∧
      Decimal.InRange (s.total_balance - w.amount)) ∧
    (∀ (tid : Nat) (d : Deposit) (hb : Decimal), s.applied_deposits tid = some d →
      Decimal.checked_add s.held_balance d.amount = some hb →
      Decimal.InRange (s.available_balance - d.amount)) ∧
    (∀ (tid : Nat) (d : Deposit), s.disputed_deposits tid = some d →
      Decimal.InRange (s.available_balance + d.amount) ∧
      Decimal.InRange (s.held_balance - d.amount)) ∧
    (∀ (tid : Nat) (d : Deposit), s.disputed_deposits tid = some d →
      Decimal.InRange (s.held_balance - d.amount) ∧
      Decimal.InRange (s.total_balance - d.amount)) := by
  have hInv := reachable_inv h
  have hbal := hInv.bal
  have hheld0 := hInv.held_nonneg
  have hheldM := hInv.held_ub
  have htot0 := hInv.total_nonneg hl
  have htotM := hInv.total_ub
  have hM := Decimal.MAX_pos
  refine ⟨?_, ?_, ?_, ?_, ?_⟩
  · intro d tb hpos hca
    obtain ⟨htb, hlo, hhi⟩ := Decimal.checked_add_some hca
    exact ⟨by linarith, by linarith⟩
  · intro w hpos hle
    have hle' : w.amount ≤ s.available_balance := le_of_not_lt hle
    exact ⟨⟨by linarith, by linarith⟩, ⟨by linarith, by linarith⟩⟩
  · intro tid d hb ha hca
    obtain ⟨hhb, hlo, hhi⟩ := Decimal.checked_add_some hca
    have hpos := (hInv.applied_ok tid d ha).1
    exact ⟨by linarith, by linarith⟩
  · intro tid d hd
    obtain ⟨hpos, hdM⟩ := hInv.disputed_ok tid d hd
    have hle := hInv.disputed_le_held hd
    exact ⟨⟨by linarith, by linarith⟩, ⟨by linarith, by linarith⟩⟩
  · intro tid d hd
    obtain ⟨hpos, hdM⟩ := hInv.disputed_ok tid d hd
    have hle := hInv.disputed_le_held hd
    exact ⟨⟨by linarith, by linarith⟩, ⟨by linarith, by linarith⟩⟩

theorem C9_unchecked_ops_stay_in_range_witness :
    Decimal.InRange
      ((((ClientAccount.new 1).apply_transaction (mkDeposit 1 5)).2).available_balance -
        (⟨3⟩ : Withdrawal).amount) ∧
    Decimal.InRange
      ((((ClientAccount.new 1).apply_transaction (mkDeposit 1 5)).2).total_balance -
        (⟨3⟩ : Withdrawal).amount) :=
  (C9_unchecked_ops_stay_in_range _
    (Reachable.step _ _ (Reachable.base 1) (by show (0 : ℚ) < 5; norm_num))
    (by with_unfolding_all rfl)).2.1 ⟨3⟩
    (by show (0 : ℚ) < 3; norm_num)
    (by
      rw [show (((ClientAccount.new 1).apply_transaction (mkDeposit 1 5)).2).available_balance =
        (5 : ℚ) from by with_unfolding_all rfl]
      show ¬ (3 : ℚ) > 5
      norm_num)

/-- C10: the total balance can go negative after a chargeback: on a fresh
account, Deposit(1, 5) → Withdrawal(2, 5) → Dispute(1) → Chargeback(1), each
returning success, ends with total_balance = -5 < 0, held_balance = 0, and the
invariant total == available + held still holding. -/
theorem C10_total_can_go_negative :
    ((ClientAccount.new 1).apply_transaction (mkDeposit 1 5)).1 = Except.ok () ∧
    ((applyAll (ClientAccount.new 1) [mkDeposit 1 5]).apply_transaction
      (mkWithdrawal 2 5)).1 = Except.ok () ∧
    ((applyAll (ClientAccount.new 1) [mkDeposit 1 5, mkWithdrawal 2 5]).apply_transaction
      (mkDispute 1)).1 = Except.ok () ∧
    ((applyAll (ClientAccount.new 1)
        [mkDeposit 1 5, mkWithdrawal 2 5, mkDispute 1]).apply_transaction
      (mkChargeback 1)).1 = Except.ok () ∧
    (applyAll (ClientAccount.new 1)
      [mkDeposit 1 5, mkWithdrawal 2 5, mkDispute 1, mkChargeback 1]).total_balance = -5 ∧
    (applyAll (ClientAccount.new 1)
      [mkDeposit 1 5, mkWithdrawal 2 5, mkDispute 1, mkChargeback 1]).total_balance < 0 ∧
    (applyAll (ClientAccount.new 1)
      [mkDeposit 1 5, mkWithdrawal 2 5, mkDispute 1, mkChargeback 1]).held_balance = 0 ∧
    (applyAll (ClientAccount.new 1)
        [mkDeposit 1 5, mkWithdrawal 2 5, mkDispute 1, mkChargeback 1]).total_balance =
      (applyAll (ClientAccount.new 1)
        [mkDeposit 1 5, mkWithdrawal 2 5, mkDispute 1, mkChargeback 1]).available_balance +
      (applyAll (ClientAccount.new 1)
        [mkDeposit 1 5, mkWithdrawal 2 5, mkDispute 1, mkChargeback 1]).held_balance := by
  have htot : (applyAll (ClientAccount.new 1)
      [mkDeposit 1 5, mkWithdrawal 2 5, mkDispute 1, mkChargeback 1]).total_balance =
      (-5 : ℚ) := by
    with_unfolding_all rfl
  refine ⟨by with_unfolding_all rfl, by with_unfolding_all rfl, by with_unfolding_all rfl,
    by with_unfolding_all rfl, htot, ?_, by with_unfolding_all rfl, by with_unfolding_all rfl⟩
  rw [htot]
  norm_num
